import Mathlib

/-!
Verification of the SkeeterHawk active-sonar detection and guidance pipeline.

The C sources (sonar.c, signal_utils.c, guidance.c) are shallowly embedded
here.  Conventions used throughout:

* `float32_t` values are idealized as exact rationals (`ℚ`); decimal float
  literals of the C source (`0.005f`, `9.81f`, the `M_PI` constant) are taken
  at their decimal value.  The guidance law additionally needs a square root,
  so it is idealized over the reals (`ℝ`) with `Real.sqrt` for `sqrtf`.
* The CMSIS trigonometric approximations `arm_cos_f32` / `arm_sin_f32` are
  uninterpreted: every definition that calls them is parameterized by
  functions `cosf sinf : ℚ → ℚ` (or `ℝ → ℝ`), exactly where the C code calls
  the corresponding CMSIS routine.
* A C float array together with an index variable ranging over it is embedded
  either as a `List ℚ` or, where the code never takes its length, as a total
  function `ℕ → ℚ`.  Output parameters written through pointers become
  returned values; a function that leaves an output untouched on an error
  path is threaded the previous value and returns it unchanged.
* `NULL` pointer arguments, where a claim mentions them, are embedded with
  `Option` (`none` = null pointer).
* Loops with an early-exit bound become structural recursion on an explicit
  iteration budget equal to the number of loop iterations in C, so that all
  definitions evaluate by `decide`/`rfl`.
-/

namespace SkeeterHawk

/-! Configuration constants (sonar.h, signal_utils.h, guidance.h) -/

/-- The math.h constant M_PI, idealized at its printed decimal value. -/
def M_PI : ℚ := 314159265358979323846 / 100000000000000000000

def NUM_MICS : ℕ := 4

def SONAR_SAMPLE_RATE : ℕ := 200000

def SONAR_CHIRP_F0 : ℚ := 38000

def SONAR_CHIRP_F1 : ℚ := 42000

/-- Speed of sound constant, 343.0f in sonar.c and signal_utils.c. -/
def SPEED_OF_SOUND : ℚ := 343

def DETECTION_THRESHOLD : ℚ := 1000

def MIN_RANGE_CM : ℚ := 10

def MAX_RANGE_CM : ℚ := 500

def BEAMFORM_AZIMUTH_STEPS : ℕ := 20

def BEAMFORM_ELEVATION_STEPS : ℕ := 20

def BEAMFORM_AZIMUTH_MIN : ℚ := -(M_PI / 2)

def BEAMFORM_AZIMUTH_MAX : ℚ := M_PI / 2

def BEAMFORM_ELEVATION_MIN : ℚ := -(M_PI / 4)

def BEAMFORM_ELEVATION_MAX : ℚ := M_PI / 4

def ADAPTIVE_THRESHOLD_FACTOR : ℚ := 3

def MAX_TARGETS : ℕ := 5

def MIN_TARGET_SEPARATION_CM : ℚ := 20

/-! Chirp generation (sonar.c, sonar_generate_chirp)

The C function takes only the output buffer and its length; the sample rate
and the two frequencies are compile-time constants.  It returns `void` and
unconditionally writes all `length` samples.  The embedding returns the
written buffer. -/

def sonar_generate_chirp (cosf : ℚ → ℚ) (length : ℕ) : List ℚ :=
  let fs : ℚ := (SONAR_SAMPLE_RATE : ℚ)
  let duration : ℚ := (length : ℚ) / fs
  let f0 : ℚ := SONAR_CHIRP_F0
  let f1 : ℚ := SONAR_CHIRP_F1
  let bandwidth : ℚ := f1 - f0
  let chirp_rate : ℚ := bandwidth / duration
  (List.range length).map (fun (i : ℕ) =>
    let t : ℚ := (i : ℚ) / fs
    let phase : ℚ := 2 * M_PI * (f0 * t + (1/2) * chirp_rate * t * t)
    let window : ℚ := (1/2) * (1 - cosf (2 * M_PI * (i : ℚ) / ((length - 1 : ℕ) : ℚ)))
    cosf phase * window)

/-- The sample value demanded by the spec for sample `i` of a chirp of the
requested length: `cos(2π(f0·t + 0.5·k·t²))`, `t = i/sampleRate`,
`k = (f1−f0)/duration`, `duration = length/sampleRate`, tapered by the Hann
window `0.5(1 − cos(2πi/(length−1)))`. -/
def chirp_spec_sample (cosf : ℚ → ℚ) (length i : ℕ) : ℚ :=
  let t : ℚ := (i : ℚ) / (SONAR_SAMPLE_RATE : ℚ)
  let k : ℚ := (SONAR_CHIRP_F1 - SONAR_CHIRP_F0) / ((length : ℚ) / (SONAR_SAMPLE_RATE : ℚ))
  cosf (2 * M_PI * (SONAR_CHIRP_F0 * t + (1/2) * k * t ^ 2)) *
    ((1/2) * (1 - cosf (2 * M_PI * (i : ℚ) / ((length : ℚ) - 1))))

theorem chirp_length_eq (cosf : ℚ → ℚ) (length : ℕ) :
    (sonar_generate_chirp cosf length).length = length := by
  simp only [sonar_generate_chirp, List.length_map, List.length_range]

/-- Claim C6: for length ≥ 2 (and f1 > f0, which holds for the compile-time
frequencies), every sample of the generated chirp is the windowed LFM value
`cos(2π(f0·t + 0.5·k·t²)) · 0.5(1 − cos(2πi/(length−1)))`, and the output
length equals the requested length. -/
theorem chirp_sample_formula (cosf : ℚ → ℚ) (length : ℕ) (h2 : 2 ≤ length)
    (i : ℕ) (hi : i < length) :
    (sonar_generate_chirp cosf length).getD i 0 = chirp_spec_sample cosf length i ∧
    (sonar_generate_chirp cosf length).length = length := by
  refine ⟨?_, chirp_length_eq cosf length⟩
  have hl : i < (sonar_generate_chirp cosf length).length := by
    rw [chirp_length_eq]; exact hi
  rw [List.getD_eq_getElem _ _ hl]
  simp only [sonar_generate_chirp, List.getElem_map, List.getElem_range]
  unfold chirp_spec_sample
  have h1 : ((length - 1 : ℕ) : ℚ) = (length : ℚ) - 1 := by
    have hle : (1 : ℕ) ≤ length := by omega
    rw [Nat.cast_sub hle, Nat.cast_one]
  rw [h1]
  ring_nf

/-- Witness for chirp_sample_formula at `length = 2`, `i = 0`,
`cosf = fun _ => 1`. -/
theorem chirp_sample_formula_witness :
    2 ≤ 2 ∧ 0 < 2 ∧
      ((sonar_generate_chirp (fun _ => 1) 2).getD 0 0 =
          chirp_spec_sample (fun _ => 1) 2 0 ∧
        (sonar_generate_chirp (fun _ => 1) 2).length = 2) :=
  ⟨by decide, by decide, chirp_sample_formula (fun _ => 1) 2 (by decide) 0 (by decide)⟩

/-- Claim C5 counterexample: for `length = 1 < 2` the C function still writes
the waveform buffer (it writes one sample) and offers no failure indication:
`sonar_generate_chirp` returns void and performs no argument validation. -/
theorem chirp_written_below_min_length :
    1 < 2 ∧ sonar_generate_chirp (fun _ => 1) 1 ≠ [] := by
  decide

/-- Claim C5 amended: `sonar_generate_chirp` performs no validation and has no
failure path.  Its frequencies are the compile-time constants
`SONAR_CHIRP_F0 = 38 kHz < SONAR_CHIRP_F1 = 42 kHz` (so `f1 ≤ f0` cannot
arise), and it writes exactly `length` samples for every requested length,
including lengths below 2. -/
theorem chirp_never_fails_always_writes (cosf : ℚ → ℚ) (length : ℕ) :
    (sonar_generate_chirp cosf length).length = length ∧
      SONAR_CHIRP_F0 < SONAR_CHIRP_F1 :=
  ⟨chirp_length_eq cosf length, by norm_num [SONAR_CHIRP_F0, SONAR_CHIRP_F1]⟩

/-! Signal statistics (signal_utils.c)

`arm_mean_f32` and `arm_std_f32` are the CMSIS mean and sample standard
deviation; the square root inside `arm_std_f32` is the uninterpreted
parameter `sqrtf`. -/

def arm_mean_f32 (l : List ℚ) : ℚ := l.sum / (l.length : ℚ)

def arm_std_f32 (sqrtf : ℚ → ℚ) (l : List ℚ) : ℚ :=
  sqrtf (((l.map (fun x => x * x)).sum - l.sum * l.sum / (l.length : ℚ)) /
    ((l.length : ℚ) - 1))

/-- Embeds signal_adaptive_threshold: `-1` on a zero-length signal, else
`mean + ADAPTIVE_THRESHOLD_FACTOR · std`.  On the error path the C function
leaves the output parameter untouched and the caller only reads the return
code; the untouched out-value is rendered as `0`. -/
def signal_adaptive_threshold (sqrtf : ℚ → ℚ) (signal : List ℚ) : Int × ℚ :=
  if signal.length = 0 then (-1, 0)
  else (0, arm_mean_f32 signal + ADAPTIVE_THRESHOLD_FACTOR * arm_std_f32 sqrtf signal)

/-! Peak finding (signal_utils.c, signal_find_peaks)

The C loop is `for (i = 1; i < length - 1 && *num_peaks < max_peaks; i++)`.
The iteration budget `n` stands for `(length - 1) - i`, so `n = 0` is exactly
the exit condition `i ≥ length - 1`. -/

def find_peaks_go (signal : ℕ → ℚ) (threshold : ℚ) (max_peaks : ℕ) :
    ℕ → ℕ → ℕ → List ℕ
  | _, _, 0 => []
  | i, cnt, n + 1 =>
    if cnt < max_peaks then
      if |signal i| > threshold ∧ |signal i| > |signal (i - 1)| ∧
          |signal i| > |signal (i + 1)| then
        i :: find_peaks_go signal threshold max_peaks (i + 1) (cnt + 1) n
      else
        find_peaks_go signal threshold max_peaks (i + 1) cnt n
    else []

/-- Embeds signal_find_peaks.  The signal pointer is embedded as a total function
(`NULL` never arises for the call sites the claims quantify over), the
written `peaks`/`num_peaks` out-parameters become the returned list. -/
def signal_find_peaks (signal : ℕ → ℚ) (length : ℕ) (threshold : ℚ)
    (max_peaks : ℕ) : Int × List ℕ :=
  if length = 0 then (-1, [])
  else (0, find_peaks_go signal threshold max_peaks 1 0 (length - 1 - 1))

lemma find_peaks_go_spec (signal : ℕ → ℚ) (threshold : ℚ) (max_peaks : ℕ) :
    ∀ (n i cnt : ℕ),
      (∀ p ∈ find_peaks_go signal threshold max_peaks i cnt n,
          i ≤ p ∧ p < i + n ∧ |signal p| > threshold ∧
          |signal p| > |signal (p - 1)| ∧ |signal p| > |signal (p + 1)|) ∧
      List.Chain' (· < ·) (find_peaks_go signal threshold max_peaks i cnt n) ∧
      (find_peaks_go signal threshold max_peaks i cnt n).length ≤ max_peaks - cnt := by
  intro n
  induction n with
  | zero =>
    intro i cnt
    simp [find_peaks_go]
  | succ n ih =>
    intro i cnt
    by_cases hc : cnt < max_peaks
    · by_cases hp : |signal i| > threshold ∧ |signal i| > |signal (i - 1)| ∧
          |signal i| > |signal (i + 1)|
      · have heq : find_peaks_go signal threshold max_peaks i cnt (n + 1) =
            i :: find_peaks_go signal threshold max_peaks (i + 1) (cnt + 1) n := by
          simp [find_peaks_go, hc, hp]
        obtain ⟨ihmem, ihchain, ihlen⟩ := ih (i + 1) (cnt + 1)
        refine ⟨?_, ?_, ?_⟩
        · intro p hpmem
          rw [heq] at hpmem
          rcases List.mem_cons.mp hpmem with h | h
          · subst h
            exact ⟨le_refl _, by omega, hp.1, hp.2.1, hp.2.2⟩
          · obtain ⟨h1, h2, h3⟩ := ihmem p h
            exact ⟨by omega, by omega, h3⟩
        · rw [heq]
          rw [List.chain'_cons']
          refine ⟨?_, ihchain⟩
          intro b hb
          have hbmem := List.mem_of_mem_head? hb
          have := (ihmem b hbmem).1
          omega
        · rw [heq]
          simp only [List.length_cons]
          omega
      · have heq : find_peaks_go signal threshold max_peaks i cnt (n + 1) =
            find_peaks_go signal threshold max_peaks (i + 1) cnt n := by
          simp [find_peaks_go, hc, hp]
        obtain ⟨ihmem, ihchain, ihlen⟩ := ih (i + 1) cnt
        rw [heq]
        refine ⟨?_, ihchain, by omega⟩
        intro p hpmem
        obtain ⟨h1, h2, h3⟩ := ihmem p hpmem
        exact ⟨by omega, by omega, h3⟩
    · simp [find_peaks_go, hc]

/-- Claim C10: for a (non-null) signal of length ≥ 1, signal_find_peaks
succeeds, the returned indices are strictly increasing, interior
(`1 ≤ p ≤ length − 2`, the two boundary samples never reported), each exceeds
the threshold in absolute value and both neighbours strictly, and at most
`max_peaks` peaks are reported. -/
theorem find_peaks_invariants (signal : ℕ → ℚ) (length : ℕ) (threshold : ℚ)
    (max_peaks : ℕ) (h1 : 1 ≤ length) :
    (signal_find_peaks signal length threshold max_peaks).1 = 0 ∧
    List.Chain' (· < ·) (signal_find_peaks signal length threshold max_peaks).2 ∧
    (signal_find_peaks signal length threshold max_peaks).2.length ≤ max_peaks ∧
    ∀ p ∈ (signal_find_peaks signal length threshold max_peaks).2,
      1 ≤ p ∧ p ≤ length - 2 ∧ p + 1 < length ∧ |signal p| > threshold ∧
      |signal p| > |signal (p - 1)| ∧ |signal p| > |signal (p + 1)| := by
  have hne : length ≠ 0 := by omega
  obtain ⟨hmem, hchain, hlen⟩ :=
    find_peaks_go_spec signal threshold max_peaks (length - 1 - 1) 1 0
  refine ⟨by simp [signal_find_peaks, hne], ?_, ?_, ?_⟩
  · simpa [signal_find_peaks, hne] using hchain
  · simpa [signal_find_peaks, hne] using hlen
  · intro p hp
    have hp2 : p ∈ find_peaks_go signal threshold max_peaks 1 0 (length - 1 - 1) := by
      simpa [signal_find_peaks, hne] using hp
    obtain ⟨ha, hb, hc⟩ := hmem p hp2
    exact ⟨ha, by omega, by omega, hc⟩

/-- Witness for find_peaks_invariants on a flat three-sample signal. -/
theorem find_peaks_invariants_witness :
    1 ≤ 3 ∧
      ((signal_find_peaks (fun _ => 0) 3 0 5).1 = 0 ∧
        List.Chain' (· < ·) (signal_find_peaks (fun _ => 0) 3 0 5).2 ∧
        (signal_find_peaks (fun _ => 0) 3 0 5).2.length ≤ 5 ∧
        ∀ p ∈ (signal_find_peaks (fun _ => 0) 3 0 5).2,
          1 ≤ p ∧ p ≤ 3 - 2 ∧ p + 1 < 3 ∧ |(fun (_ : ℕ) => (0 : ℚ)) p| > 0 ∧
          |(fun (_ : ℕ) => (0 : ℚ)) p| > |(fun (_ : ℕ) => (0 : ℚ)) (p - 1)| ∧
          |(fun (_ : ℕ) => (0 : ℚ)) p| > |(fun (_ : ℕ) => (0 : ℚ)) (p + 1)|) :=
  ⟨by decide, find_peaks_invariants (fun _ => 0) 3 0 5 (by decide)⟩

/-! Greedy clustering (signal_utils.c, signal_cluster_detections) -/

structure target_cluster_t where
  range_cm : ℚ
  azimuth_rad : ℚ
  elevation_rad : ℚ
  power : ℚ
  sample_count : ℕ
deriving DecidableEq

/-- Round-trip range of a peak index:
`(peaks[i] · SPEED_OF_SOUND · 100) / (2 · sample_rate)` (cm). -/
def peak_range_cm (sample_rate : ℕ) (peak : ℕ) : ℚ :=
  ((peak : ℚ) * SPEED_OF_SOUND * 100) / (2 * (sample_rate : ℚ))

/-- The inner `j` loop of signal_cluster_detections: every remaining peak is
tested, in order, against the running mean range of the current cluster;
merged peaks update the cluster (weighted mean range, max power), unmerged
ones stay unprocessed for later clusters (returned in order as `.2`).
The cluster's azimuth/elevation fields are never assigned by this C function
(they are uninitialized memory until the caller overwrites them); the
embedding carries them through unchanged. -/
def cluster_absorb (sample_rate : ℕ) (signal : ℕ → ℚ)
    (cl : target_cluster_t) (rest : List ℕ) : target_cluster_t × List ℕ :=
  rest.foldl (fun acc j =>
    let cluster := acc.1
    let range_j := peak_range_cm sample_rate j
    if |range_j - cluster.range_cm| < MIN_TARGET_SEPARATION_CM then
      ({ cluster with
          range_cm := (cluster.range_cm * (cluster.sample_count : ℚ) + range_j) /
            ((cluster.sample_count : ℚ) + 1),
          power := max cluster.power |signal j|,
          sample_count := cluster.sample_count + 1 }, acc.2)
    else (cluster, acc.2 ++ [j])) (cl, [])

/-- The outer `i` loop: start a new cluster at the first unprocessed peak
while fewer than `max_clusters` clusters exist.  Each iteration consumes at
least one peak, so the iteration budget `fuel` never runs out when it is at
least the number of peaks (the caller passes `peaks.length`). -/
def cluster_go (sample_rate : ℕ) (signal : ℕ → ℚ) (max_clusters : ℕ) :
    ℕ → List ℕ → ℕ → List target_cluster_t
  | 0, _, _ => []
  | _ + 1, [], _ => []
  | n + 1, p :: rest, num_clusters =>
    if num_clusters < max_clusters then
      let start : target_cluster_t :=
        { range_cm := peak_range_cm sample_rate p, azimuth_rad := 0,
          elevation_rad := 0, power := |signal p|, sample_count := 1 }
      let step := cluster_absorb sample_rate signal start rest
      step.1 :: cluster_go sample_rate signal max_clusters n step.2 (num_clusters + 1)
    else []

/-- Embeds signal_cluster_detections: `-1` for zero peaks (and null pointers, which
the embedding's total values exclude); the scratch `processed` allocation is
assumed to succeed. -/
def signal_cluster_detections (sample_rate : ℕ) (signal : ℕ → ℚ)
    (peaks : List ℕ) (max_clusters : ℕ) : Int × List target_cluster_t :=
  if peaks.length = 0 then (-1, [])
  else (0, cluster_go sample_rate signal max_clusters peaks.length peaks 0)

lemma cluster_go_length_le (sample_rate : ℕ) (signal : ℕ → ℚ)
    (max_clusters : ℕ) :
    ∀ (n : ℕ) (peaks : List ℕ) (num_clusters : ℕ),
      (cluster_go sample_rate signal max_clusters n peaks num_clusters).length ≤
        max_clusters - num_clusters := by
  intro n
  induction n with
  | zero => intro peaks nc; simp [cluster_go]
  | succ n ih =>
    intro peaks nc
    match peaks with
    | [] => simp [cluster_go]
    | p :: rest =>
      by_cases hc : nc < max_clusters
      · simp only [cluster_go, if_pos hc, List.length_cons]
        have := ih (cluster_absorb sample_rate signal
          { range_cm := peak_range_cm sample_rate p, azimuth_rad := 0,
            elevation_rad := 0, power := |signal p|, sample_count := 1 } rest).2 (nc + 1)
        omega
      · simp [cluster_go, hc]

/-- Claim C7: peak indices are converted to ranges by the round-trip formula;
with two peaks, a range difference under the minimum separation yields one
cluster whose range is the running weighted mean and whose power is the
maximum observed, a difference over the minimum separation yields two
distinct clusters, and the cluster count never exceeds the maximum cluster
count. -/
theorem cluster_two_peaks_and_cap (sample_rate : ℕ) (signal : ℕ → ℚ)
    (_hfs : 0 < sample_rate) (p1 p2 : ℕ) :
    (|peak_range_cm sample_rate p2 - peak_range_cm sample_rate p1| <
        MIN_TARGET_SEPARATION_CM →
      signal_cluster_detections sample_rate signal [p1, p2] MAX_TARGETS =
        (0, [{ range_cm :=
                 (peak_range_cm sample_rate p1 + peak_range_cm sample_rate p2) / 2,
               azimuth_rad := 0, elevation_rad := 0,
               power := max |signal p1| |signal p2|, sample_count := 2 }])) ∧
    (MIN_TARGET_SEPARATION_CM <
        |peak_range_cm sample_rate p2 - peak_range_cm sample_rate p1| →
      signal_cluster_detections sample_rate signal [p1, p2] MAX_TARGETS =
        (0, [{ range_cm := peak_range_cm sample_rate p1, azimuth_rad := 0,
               elevation_rad := 0, power := |signal p1|, sample_count := 1 },
             { range_cm := peak_range_cm sample_rate p2, azimuth_rad := 0,
               elevation_rad := 0, power := |signal p2|, sample_count := 1 }])) ∧
    (∀ (peaks : List ℕ) (max_clusters : ℕ),
      (signal_cluster_detections sample_rate signal peaks max_clusters).2.length ≤
        max_clusters) := by
  refine ⟨?_, ?_, ?_⟩
  · intro hsep
    simp only [signal_cluster_detections, List.length_cons, List.length_nil]
    norm_num
    simp only [cluster_go, cluster_absorb, List.foldl, if_pos hsep, MAX_TARGETS]
    norm_num
  · intro hsep
    have hns : ¬ |peak_range_cm sample_rate p2 - peak_range_cm sample_rate p1| <
        MIN_TARGET_SEPARATION_CM := not_lt_of_gt hsep
    simp only [signal_cluster_detections, List.length_cons, List.length_nil]
    norm_num
    simp only [cluster_go, cluster_absorb, List.foldl, if_neg hns, MAX_TARGETS]
    norm_num
  · intro peaks max_clusters
    by_cases hp : peaks.length = 0
    · simp [signal_cluster_detections, hp]
    · simp only [signal_cluster_detections, if_neg hp]
      have := cluster_go_length_le sample_rate signal max_clusters peaks.length peaks 0
      omega

/-- Witness for cluster_two_peaks_and_cap: with `sample_rate = 17150` the
peak range in cm equals the peak index, so peaks 100 and 110 are 10 cm apart
and merge into one cluster of mean range 105 and power 110. -/
theorem cluster_two_peaks_and_cap_witness :
    0 < 17150 ∧
      signal_cluster_detections 17150 (fun n => (n : ℚ)) [100, 110] MAX_TARGETS =
        (0, [{ range_cm := 105, azimuth_rad := 0, elevation_rad := 0,
               power := 110, sample_count := 2 }]) := by
  refine ⟨by decide, ?_⟩
  have hsep : |peak_range_cm 17150 110 - peak_range_cm 17150 100| <
      MIN_TARGET_SEPARATION_CM := by with_unfolding_all decide
  have h2 := (cluster_two_peaks_and_cap 17150 (fun n => (n : ℚ)) (by decide) 100 110).1 hsep
  rw [h2]
  with_unfolding_all decide

/-! Multi-target detection (signal_utils.c, signal_detect_multi_target) -/

structure multi_target_result_t where
  targets : List target_cluster_t
  num_targets : ℕ
  valid : Bool
deriving DecidableEq

/-- Embeds signal_detect_multi_target.  The beamformed buffer pointer plus its
length argument are embedded as an optional list (`none` = NULL); the result
pointer as a threaded value, so error paths before any store return the
incoming `result` untouched.  The copy loop writes the first
`min num_clusters MAX_TARGETS` target slots (azimuth/elevation zeroed) and
leaves the remaining slots of the caller's array as they were. -/
def signal_detect_multi_target (sqrtf : ℚ → ℚ)
    (beamformed_output : Option (List ℚ)) (sample_rate : ℕ)
    (result : multi_target_result_t) : Int × multi_target_result_t :=
  match beamformed_output with
  | none => (-1, result)
  | some sig =>
    if sig.length = 0 then (-1, result)
    else
      let result1 : multi_target_result_t := { result with num_targets := 0, valid := false }
      let thr := signal_adaptive_threshold sqrtf sig
      if thr.1 ≠ 0 then (-2, result1)
      else
        let sigf : ℕ → ℚ := fun i => sig.getD i 0
        let fp := signal_find_peaks sigf sig.length thr.2 (MAX_TARGETS * 2)
        if fp.1 ≠ 0 then (-3, result1)
        else if fp.2.length = 0 then (0, result1)
        else
          let cd := signal_cluster_detections sample_rate sigf fp.2 MAX_TARGETS
          if cd.1 ≠ 0 then (-4, result1)
          else
            let clusters := (cd.2.take MAX_TARGETS).map
              (fun c => { c with azimuth_rad := 0, elevation_rad := 0 })
            (0, { targets := clusters ++ result1.targets.drop clusters.length,
                  num_targets := cd.2.length,
                  valid := decide (0 < cd.2.length) })

/-- Claim C8: a null or zero-length input yields the InvalidArgument error
`-1` (result untouched); when peak finding over the adaptive threshold finds
no peaks the function succeeds with return 0, zero reported targets, and the
result marked not valid. -/
theorem detect_multi_target_error_paths (sqrtf : ℚ → ℚ) (sample_rate : ℕ)
    (r0 : multi_target_result_t) :
    signal_detect_multi_target sqrtf none sample_rate r0 = (-1, r0) ∧
    (∀ sig : List ℚ, sig.length = 0 →
      signal_detect_multi_target sqrtf (some sig) sample_rate r0 = (-1, r0)) ∧
    (∀ sig : List ℚ, sig.length ≠ 0 →
      (signal_find_peaks (fun i => sig.getD i 0) sig.length
          (signal_adaptive_threshold sqrtf sig).2 (MAX_TARGETS * 2)).2 = [] →
      signal_detect_multi_target sqrtf (some sig) sample_rate r0 =
        (0, { r0 with num_targets := 0, valid := false })) := by
  refine ⟨rfl, ?_, ?_⟩
  · intro sig hlen
    simp [signal_detect_multi_target, hlen]
  · intro sig hlen hpeaks
    have hthr : (signal_adaptive_threshold sqrtf sig).1 = 0 := by
      simp [signal_adaptive_threshold, hlen]
    have hfp : (signal_find_peaks (fun i => sig.getD i 0) sig.length
        (signal_adaptive_threshold sqrtf sig).2 (MAX_TARGETS * 2)).1 = 0 := by
      simp [signal_find_peaks, hlen]
    simp only [List.getD, List.get?_eq_getElem?] at hpeaks hfp
    simp [signal_detect_multi_target, hlen, hthr, hfp, hpeaks, List.getD,
      List.get?_eq_getElem?]

/-- Witness for detect_multi_target_error_paths: a flat signal produces no
peaks, and the detector succeeds with zero targets marked not valid. -/
theorem detect_multi_target_error_paths_witness :
    ([(5 : ℚ), 5, 5].length ≠ 0) ∧
      signal_detect_multi_target (fun _ => 0) (some [(5 : ℚ), 5, 5]) 200000
          { targets := [], num_targets := 3, valid := true } =
        (0, { targets := [], num_targets := 0, valid := false }) := by
  refine ⟨by decide, ?_⟩
  exact (detect_multi_target_error_paths (fun _ => 0) 200000
      { targets := [], num_targets := 3, valid := true }).2.2 [(5 : ℚ), 5, 5]
    (by decide) (by with_unfolding_all decide)

/-! Target readout (sonar.c, sonar_get_target) -/

structure target_info_t where
  range_cm : ℚ
  azimuth_rad : ℚ
  elevation_rad : ℚ
  confidence : ℚ
  valid : Bool
deriving DecidableEq

/-- Embeds sonar_get_target, which reads `state->target` (the only state field it
touches) and writes `*target` only when the stored estimate is valid.
Null-pointer arguments (return `-1`, output also untouched) are excluded by
the embedding's total values. -/
def sonar_get_target (state_target : target_info_t) (target : target_info_t) :
    Int × target_info_t :=
  if state_target.valid = false then (-2, target) else (0, state_target)

/-- Claim C9: for an invalid stored estimate sonar_get_target returns the
nonzero code `-2` and leaves the caller's output structure unmodified; it
copies the stored estimate and returns 0 exactly when the stored estimate is
valid. -/
theorem get_target_invalid_untouched (st out0 : target_info_t) :
    (st.valid = false → sonar_get_target st out0 = (-2, out0)) ∧
    (st.valid = true → sonar_get_target st out0 = (0, st)) ∧
    ((sonar_get_target st out0).1 = 0 ↔ st.valid = true) ∧
    ((sonar_get_target st out0).1 ≠ 0 → (sonar_get_target st out0).2 = out0) := by
  cases hv : st.valid <;> simp [sonar_get_target, hv]

/-- Witness for get_target_invalid_untouched at an invalid stored estimate. -/
theorem get_target_invalid_untouched_witness :
    sonar_get_target ⟨1, 2, 3, 4, false⟩ ⟨9, 9, 9, 9, true⟩ =
      (-2, ⟨9, 9, 9, 9, true⟩) :=
  (get_target_invalid_untouched ⟨1, 2, 3, 4, false⟩ ⟨9, 9, 9, 9, true⟩).1 rfl

/-! Delay-and-sum beamforming (sonar.c, sonar_beamform)

The microphone array geometry is the static `mic_positions` table; the float
literals `±0.005f` are idealized at their decimal value `±5/1000`. -/

def mic_positions : List (ℚ × ℚ × ℚ) :=
  [(-5/1000, -5/1000, 0), (5/1000, -5/1000, 0), (-5/1000, 5/1000, 0), (5/1000, 5/1000, 0)]

/-- A C `(int32_t)` cast of a float truncates toward zero. -/
def c_trunc (q : ℚ) : ℤ := if 0 ≤ q then ⌊q⌋ else ⌈q⌉

/-- The per-channel TDOA delays of sonar_beamform after normalization
relative to the first microphone. -/
def beam_delays (cosf sinf : ℚ → ℚ) (azimuth elevation : ℚ) : List ℚ :=
  let steering : ℚ × ℚ × ℚ :=
    (cosf elevation * cosf azimuth, cosf elevation * sinf azimuth, sinf elevation)
  let delays := mic_positions.map (fun m =>
    (m.1 * steering.1 + m.2.1 * steering.2.1 + m.2.2 * steering.2.2) / SPEED_OF_SOUND)
  let delay_offset := delays.getD 0 0
  delays.map (fun d => d - delay_offset)

/-- The integer sample shift the C code applies to channel `i`:
`(int32_t)(delays[i] * SONAR_SAMPLE_RATE)`, i.e. truncation toward zero. -/
def beam_shift (cosf sinf : ℚ → ℚ) (azimuth elevation : ℚ) (i : ℕ) : ℤ :=
  c_trunc ((beam_delays cosf sinf azimuth elevation).getD i 0 * (SONAR_SAMPLE_RATE : ℚ))

/-- Embeds sonar_beamform: clear the output, accumulate each channel at its shifted
index (skipping shifted indices outside `[0, sample_count)`), then scale by
`1/NUM_MICS`.  `filtered` is `state->filtered_buffer`, `sample_count` is
`state->sample_count`. -/
def sonar_beamform (cosf sinf : ℚ → ℚ) (filtered : ℕ → ℕ → ℚ) (sample_count : ℕ)
    (azimuth elevation : ℚ) : List ℚ :=
  let init := List.replicate sample_count (0 : ℚ)
  let summed := (List.range NUM_MICS).foldl (fun acc i =>
    let delay_samples : ℤ := beam_shift cosf sinf azimuth elevation i
    acc.mapIdx (fun j v =>
      let src_idx : ℤ := (j : ℤ) - delay_samples
      if 0 ≤ src_idx ∧ src_idx < (sample_count : ℤ) then v + filtered i src_idx.toNat
      else v)) init
  summed.map (fun v => v * (1 / (NUM_MICS : ℚ)))

/-- Modelled from the spec: the same delay-and-sum beamformer of §4.3
but with each relative delay converted to an integer sample shift by
rounding (`round(τ_i·sampleRate)`), as the spec states, instead of the C
cast's truncation toward zero. -/
def sonar_beamform_rounded (cosf sinf : ℚ → ℚ) (filtered : ℕ → ℕ → ℚ)
    (sample_count : ℕ) (azimuth elevation : ℚ) : List ℚ :=
  let init := List.replicate sample_count (0 : ℚ)
  let summed := (List.range NUM_MICS).foldl (fun acc i =>
    let delay_samples : ℤ :=
      round ((beam_delays cosf sinf azimuth elevation).getD i 0 * (SONAR_SAMPLE_RATE : ℚ))
    acc.mapIdx (fun j v =>
      let src_idx : ℤ := (j : ℤ) - delay_samples
      if 0 ≤ src_idx ∧ src_idx < (sample_count : ℤ) then v + filtered i src_idx.toNat
      else v)) init
  summed.map (fun v => v * (1 / (NUM_MICS : ℚ)))

lemma foldl_mapIdx_add_getD (contrib : ℕ → ℕ → ℚ) :
    ∀ (ms : List ℕ) (acc : List ℚ),
      ((ms.foldl (fun a i => a.mapIdx (fun j v => v + contrib i j)) acc).length =
        acc.length) ∧
      ∀ j : ℕ, j < acc.length →
        (ms.foldl (fun a i => a.mapIdx (fun j v => v + contrib i j)) acc).getD j 0 =
          acc.getD j 0 + (ms.map (fun i => contrib i j)).sum := by
  intro ms
  induction ms with
  | nil => intro acc; simp
  | cons i ms ih =>
    intro acc
    simp only [List.foldl_cons, List.map_cons, List.sum_cons]
    obtain ⟨ihlen, ihget⟩ := ih (acc.mapIdx fun j v => v + contrib i j)
    refine ⟨by rw [ihlen, List.length_mapIdx], ?_⟩
    intro j hj
    have hj2 : j < (acc.mapIdx fun j v => v + contrib i j).length := by
      rw [List.length_mapIdx]; exact hj
    rw [ihget j hj2]
    have hmap : (acc.mapIdx fun j v => v + contrib i j).getD j 0 =
        acc.getD j 0 + contrib i j := by
      rw [List.getD_eq_getElem _ _ hj2, List.getD_eq_getElem _ _ hj]
      have h3 := List.get_mapIdx acc (fun j v => v + contrib i j) j hj
      simp only [List.get_eq_getElem] at h3
      exact h3
    rw [hmap]
    ring

/-- Claim C4 amended: the delay-and-sum output has the requested length; the
reference channel's sample shift is exactly 0 (delays are normalized against
channel 0); each output sample is the sum over channels of the sample at the
shifted index — the shift being the truncation toward zero of
`τ_i·sampleRate`, not its rounding — with indices outside
`[0, sample_count)` contributing zero, divided by the channel count. -/
theorem beamform_characterization (cosf sinf : ℚ → ℚ) (filtered : ℕ → ℕ → ℚ)
    (L : ℕ) (az el : ℚ) (j : ℕ) (hj : j < L) :
    (sonar_beamform cosf sinf filtered L az el).length = L ∧
    beam_shift cosf sinf az el 0 = 0 ∧
    (sonar_beamform cosf sinf filtered L az el).getD j 0 =
      ((List.range NUM_MICS).map (fun i =>
          if 0 ≤ (j : ℤ) - beam_shift cosf sinf az el i ∧
              (j : ℤ) - beam_shift cosf sinf az el i < (L : ℤ) then
            filtered i ((j : ℤ) - beam_shift cosf sinf az el i).toNat
          else 0)).sum / (NUM_MICS : ℚ) := by
  have hshift0 : beam_shift cosf sinf az el 0 = 0 := by
    have hd : (beam_delays cosf sinf az el).getD 0 0 = 0 := by
      simp [beam_delays, mic_positions]
    rw [beam_shift, hd]
    norm_num [c_trunc]
  have hfun : (fun (acc : List ℚ) (i : ℕ) =>
        let delay_samples : ℤ := beam_shift cosf sinf az el i
        acc.mapIdx (fun j v =>
          let src_idx : ℤ := (j : ℤ) - delay_samples
          if 0 ≤ src_idx ∧ src_idx < (L : ℤ) then v + filtered i src_idx.toNat
          else v)) =
      (fun (acc : List ℚ) (i : ℕ) => acc.mapIdx (fun j v => v +
        (if 0 ≤ (j : ℤ) - beam_shift cosf sinf az el i ∧
            (j : ℤ) - beam_shift cosf sinf az el i < (L : ℤ) then
          filtered i ((j : ℤ) - beam_shift cosf sinf az el i).toNat
        else 0))) := by
    funext acc i
    simp only []
    congr 1
    funext j v
    split <;> simp
  obtain ⟨hlen, hget⟩ := foldl_mapIdx_add_getD
    (fun i j => if 0 ≤ (j : ℤ) - beam_shift cosf sinf az el i ∧
        (j : ℤ) - beam_shift cosf sinf az el i < (L : ℤ) then
      filtered i ((j : ℤ) - beam_shift cosf sinf az el i).toNat
    else 0) (List.range NUM_MICS) (List.replicate L 0)
  have hrl : (List.replicate L (0 : ℚ)).length = L := List.length_replicate L 0
  refine ⟨?_, hshift0, ?_⟩
  · simp only [sonar_beamform, hfun, List.length_map]
    rw [hlen, hrl]
  · have hj' : j < (List.replicate L (0 : ℚ)).length := by rw [hrl]; exact hj
    have hsummedlen : j < ((List.range NUM_MICS).foldl
        (fun a i => a.mapIdx (fun j v => v +
          (if 0 ≤ (j : ℤ) - beam_shift cosf sinf az el i ∧
              (j : ℤ) - beam_shift cosf sinf az el i < (L : ℤ) then
            filtered i ((j : ℤ) - beam_shift cosf sinf az el i).toNat
          else 0))) (List.replicate L 0)).length := by
      rw [hlen, hrl]; exact hj
    have hrep : (List.replicate L (0 : ℚ)).getD j 0 = 0 := by
      rw [List.getD_eq_getElem _ _ hj']
      simp
    simp only [sonar_beamform, hfun]
    rw [List.getD_eq_getElem _ _ (by rw [List.length_map]; exact hsummedlen)]
    rw [List.getElem_map]
    rw [← List.getD_eq_getElem _ _ hsummedlen]
    rw [hget j hj', hrep]
    have h4 : (NUM_MICS : ℚ) ≠ 0 := by norm_num [NUM_MICS]
    field_simp

/-- Witness for beamform_characterization at `j = 3 < 10` with concrete
direction functions and an impulse channel. -/
theorem beamform_characterization_witness :
    3 < 10 ∧
      ((sonar_beamform (fun _ => 1) (fun _ => 0) (fun _ n => if n = 0 then 1 else 0)
          10 0 0).length = 10 ∧
        beam_shift (fun _ => 1) (fun _ => 0) 0 0 0 = 0 ∧
        (sonar_beamform (fun _ => 1) (fun _ => 0) (fun _ n => if n = 0 then 1 else 0)
            10 0 0).getD 3 0 =
          ((List.range NUM_MICS).map (fun i =>
              if 0 ≤ (3 : ℤ) - beam_shift (fun _ => 1) (fun _ => 0) 0 0 i ∧
                  (3 : ℤ) - beam_shift (fun _ => 1) (fun _ => 0) 0 0 i < (10 : ℤ) then
                (fun (_ : ℕ) (n : ℕ) => if n = 0 then (1 : ℚ) else 0) i
                  ((3 : ℤ) - beam_shift (fun _ => 1) (fun _ => 0) 0 0 i).toNat
              else 0)).sum / (NUM_MICS : ℚ)) :=
  ⟨by decide, beamform_characterization (fun _ => 1) (fun _ => 0)
    (fun _ n => if n = 0 then 1 else 0) 10 0 0 3 (by decide)⟩

/-- Claim C4 counterexample: with steering functions `cosf = 1`, `sinf = 0`
the normalized delay of channel 1 is `0.01/343` s, whose sample shift at
200 kHz is `2000/343 ≈ 5.83`; the C truncation uses 5 while the spec's
rounding demands 6, and the two beamformer outputs differ on an impulse
input. -/
theorem beamform_trunc_vs_round_counterexample :
    beam_shift (fun _ => 1) (fun _ => 0) 0 0 1 = 5 ∧
    round ((beam_delays (fun _ => 1) (fun _ => 0) 0 0).getD 1 0 *
      (SONAR_SAMPLE_RATE : ℚ)) = 6 ∧
    sonar_beamform (fun _ => 1) (fun _ => 0) (fun _ n => if n = 0 then 1 else 0)
        10 0 0 ≠
      sonar_beamform_rounded (fun _ => 1) (fun _ => 0)
        (fun _ n => if n = 0 then 1 else 0) 10 0 0 := by
  refine ⟨?_, ?_, ?_⟩ <;> with_unfolding_all decide

/-! Angular search and detection (sonar.c, sonar_detect_target)

The scan invokes the beamformer at each grid point and reads the freshly
overwritten `state->beamformed_output`; the embedding parameterizes the scan
by `B : azimuth → elevation → beamformed output`, which in the firmware is
`sonar_beamform` applied to the state's filtered channels. -/

/-- Embeds the CMSIS arm_max_f32 inner loop: running (signed) maximum with the index of
its first occurrence; `best`/`best_idx` are the running values and `i` the
index of the head of `l` in the original buffer. -/
def arm_max_go : List ℚ → ℚ → ℕ → ℕ → ℚ × ℕ
  | [], best, best_idx, _ => (best, best_idx)
  | y :: ys, best, best_idx, i =>
    if best < y then arm_max_go ys y i (i + 1)
    else arm_max_go ys best best_idx (i + 1)

/-- Embeds CMSIS arm_max_f32: the maximum (signed) value of a non-empty buffer and
the index of its first occurrence.  The empty case cannot arise (CMSIS
requires blockSize ≥ 1); it is given the dummy value `(0, 0)`. -/
def arm_max_f32 : List ℚ → ℚ × ℕ
  | [] => (0, 0)
  | x :: xs => arm_max_go xs x 0 1

structure scan_best where
  max_power : ℚ
  best_azimuth : ℚ
  best_elevation : ℚ
  best_peak_idx : ℕ
deriving DecidableEq

def beam_az_step : ℚ :=
  (BEAMFORM_AZIMUTH_MAX - BEAMFORM_AZIMUTH_MIN) / (BEAMFORM_AZIMUTH_STEPS : ℚ)

def beam_el_step : ℚ :=
  (BEAMFORM_ELEVATION_MAX - BEAMFORM_ELEVATION_MIN) / (BEAMFORM_ELEVATION_STEPS : ℚ)

/-- The az-outer, el-inner grid of steering directions scanned by
sonar_detect_target. -/
def beam_grid : List (ℚ × ℚ) :=
  (List.range BEAMFORM_AZIMUTH_STEPS).flatMap (fun az_idx =>
    (List.range BEAMFORM_ELEVATION_STEPS).map (fun el_idx =>
      (BEAMFORM_AZIMUTH_MIN + (az_idx : ℚ) * beam_az_step,
       BEAMFORM_ELEVATION_MIN + (el_idx : ℚ) * beam_el_step)))

/-- The power the scan assigns to a grid point: `fabsf` of the signed
maximum returned by arm_max_f32 (not the maximum absolute sample). -/
def grid_power (B : ℚ → ℚ → List ℚ) (p : ℚ × ℚ) : ℚ :=
  |(arm_max_f32 (B p.1 p.2)).1|

/-- One iteration of the angle-search loop body: beamform, take
arm_max_f32, and update the tracked global best on strict improvement. -/
def scan_step (B : ℚ → ℚ → List ℚ) (best : scan_best) (p : ℚ × ℚ) : scan_best :=
  let m := arm_max_f32 (B p.1 p.2)
  let power := |m.1|
  if best.max_power < power then
    { max_power := power, best_azimuth := p.1, best_elevation := p.2,
      best_peak_idx := m.2 }
  else best

/-- The full angular scan of sonar_detect_target with its zero-initialized
tracking state. -/
def sonar_scan (B : ℚ → ℚ → List ℚ) : scan_best :=
  beam_grid.foldl (scan_step B)
    { max_power := 0, best_azimuth := 0, best_elevation := 0, best_peak_idx := 0 }

/-- Embeds sonar_detect_target after the scan: threshold check, round-trip range
computation and validation, then population of `state->target`.  `target0`
is the incoming `state->target`; the no-detection paths only clear its
`valid` flag. -/
def sonar_detect_target (B : ℚ → ℚ → List ℚ) (target0 : target_info_t) :
    Int × target_info_t :=
  let s := sonar_scan B
  if s.max_power < DETECTION_THRESHOLD then (-2, { target0 with valid := false })
  else
    let tof : ℚ := (s.best_peak_idx : ℚ) / (SONAR_SAMPLE_RATE : ℚ)
    let range_cm : ℚ := tof * SPEED_OF_SOUND * 100 / 2
    if range_cm < MIN_RANGE_CM ∨ MAX_RANGE_CM < range_cm then
      (-3, { target0 with valid := false })
    else
      (0, { range_cm := range_cm, azimuth_rad := s.best_azimuth,
            elevation_rad := s.best_elevation,
            confidence := min (s.max_power / (DETECTION_THRESHOLD * 10)) 1,
            valid := true })

/-- The round-trip range sonar_detect_target derives from a peak index:
`(peakIndex / sampleRate) · speedOfSound · 100 / 2`. -/
def detect_range_cm (peak_idx : ℕ) : ℚ :=
  ((peak_idx : ℚ) / (SONAR_SAMPLE_RATE : ℚ)) * SPEED_OF_SOUND * 100 / 2

/-- Claim C2: after the scan, sonar_detect_target reports no target
(invalid target, nonzero return) exactly when the global peak power is
below the detection threshold or the computed round-trip range falls
outside `[MIN_RANGE_CM, MAX_RANGE_CM]`; otherwise it returns 0 and
populates the target estimate with that range, the best direction,
`confidence = min(peak/(threshold·10), 1)`, and the valid flag. -/
theorem detect_target_classification (B : ℚ → ℚ → List ℚ) (t0 : target_info_t) :
    (((sonar_scan B).max_power < DETECTION_THRESHOLD ∨
        detect_range_cm (sonar_scan B).best_peak_idx < MIN_RANGE_CM ∨
        MAX_RANGE_CM < detect_range_cm (sonar_scan B).best_peak_idx) →
      (sonar_detect_target B t0).1 ≠ 0 ∧
        (sonar_detect_target B t0).2 = { t0 with valid := false }) ∧
    (¬ ((sonar_scan B).max_power < DETECTION_THRESHOLD ∨
        detect_range_cm (sonar_scan B).best_peak_idx < MIN_RANGE_CM ∨
        MAX_RANGE_CM < detect_range_cm (sonar_scan B).best_peak_idx) →
      sonar_detect_target B t0 =
        (0, { range_cm := detect_range_cm (sonar_scan B).best_peak_idx,
              azimuth_rad := (sonar_scan B).best_azimuth,
              elevation_rad := (sonar_scan B).best_elevation,
              confidence :=
                min ((sonar_scan B).max_power / (DETECTION_THRESHOLD * 10)) 1,
              valid := true })) := by
  by_cases h1 : (sonar_scan B).max_power < DETECTION_THRESHOLD
  · refine ⟨fun _ => ?_, fun hn => absurd (Or.inl h1) hn⟩
    simp [sonar_detect_target, h1]
  · by_cases h2 : detect_range_cm (sonar_scan B).best_peak_idx < MIN_RANGE_CM ∨
        MAX_RANGE_CM < detect_range_cm (sonar_scan B).best_peak_idx
    · refine ⟨fun _ => ?_, fun hn => absurd (Or.inr h2) hn⟩
      have h2' : ((sonar_scan B).best_peak_idx : ℚ) / (SONAR_SAMPLE_RATE : ℚ) *
          SPEED_OF_SOUND * 100 / 2 < MIN_RANGE_CM ∨
          MAX_RANGE_CM < ((sonar_scan B).best_peak_idx : ℚ) /
            (SONAR_SAMPLE_RATE : ℚ) * SPEED_OF_SOUND * 100 / 2 := h2
      simp [sonar_detect_target, h1, h2']
    · refine ⟨fun h => ?_, fun _ => ?_⟩
      · rcases h with h | h | h
        · exact absurd h h1
        · exact absurd (Or.inl h) h2
        · exact absurd (Or.inr h) h2
      · have h2' : ¬ (((sonar_scan B).best_peak_idx : ℚ) / (SONAR_SAMPLE_RATE : ℚ) *
            SPEED_OF_SOUND * 100 / 2 < MIN_RANGE_CM ∨
            MAX_RANGE_CM < ((sonar_scan B).best_peak_idx : ℚ) /
              (SONAR_SAMPLE_RATE : ℚ) * SPEED_OF_SOUND * 100 / 2) := h2
        simp only [sonar_detect_target, if_neg h1, if_neg h2']
        rfl

lemma scan_foldl_fixed (v : List ℚ) (b : scan_best)
    (hb : ¬ b.max_power < |(arm_max_f32 v).1|) :
    ∀ l : List (ℚ × ℚ), l.foldl (scan_step (fun _ _ => v)) b = b := by
  intro l
  induction l with
  | nil => rfl
  | cons p rest ih =>
    rw [List.foldl_cons]
    have hstep : scan_step (fun _ _ => v) b p = b := by
      simp only [scan_step, if_neg hb]
    rw [hstep]
    exact ih

set_option maxRecDepth 4000 in
/-- A scan over a beamformed signal that is the same at every grid point
updates the tracked best at the very first grid point and never again. -/
lemma sonar_scan_const (v : List ℚ) (hpos : 0 < |(arm_max_f32 v).1|) :
    sonar_scan (fun _ _ => v) =
      { max_power := |(arm_max_f32 v).1|,
        best_azimuth := BEAMFORM_AZIMUTH_MIN,
        best_elevation := BEAMFORM_ELEVATION_MIN,
        best_peak_idx := (arm_max_f32 v).2 } := by
  have hg : beam_grid =
      (BEAMFORM_AZIMUTH_MIN + ((0 : ℕ) : ℚ) * beam_az_step,
       BEAMFORM_ELEVATION_MIN + ((0 : ℕ) : ℚ) * beam_el_step) :: beam_grid.tail := by
    with_unfolding_all rfl
  rw [sonar_scan, hg, List.foldl_cons]
  have hstep : scan_step (fun _ _ => v)
      { max_power := 0, best_azimuth := 0, best_elevation := 0, best_peak_idx := 0 }
      (BEAMFORM_AZIMUTH_MIN + ((0 : ℕ) : ℚ) * beam_az_step,
       BEAMFORM_ELEVATION_MIN + ((0 : ℕ) : ℚ) * beam_el_step) =
      { max_power := |(arm_max_f32 v).1|,
        best_azimuth := BEAMFORM_AZIMUTH_MIN,
        best_elevation := BEAMFORM_ELEVATION_MIN,
        best_peak_idx := (arm_max_f32 v).2 } := by
    simp only [scan_step, if_pos hpos]
    simp
  rw [hstep]
  exact scan_foldl_fixed v _ (lt_irrefl _) beam_grid.tail

/-- Witness for detect_target_classification: a scan whose strongest signed
maximum (2500) passes the threshold but whose peak index 1 maps to a 0.08575
cm range, below MIN_RANGE_CM, so no target is reported. -/
theorem detect_target_classification_witness :
    ((sonar_scan (fun _ _ => [0, 2500, 0])).max_power < DETECTION_THRESHOLD ∨
      detect_range_cm (sonar_scan (fun _ _ => [0, 2500, 0])).best_peak_idx <
        MIN_RANGE_CM ∨
      MAX_RANGE_CM <
        detect_range_cm (sonar_scan (fun _ _ => [0, 2500, 0])).best_peak_idx) ∧
    ((sonar_detect_target (fun _ _ => [0, 2500, 0]) ⟨7, 7, 7, 7, true⟩).1 ≠ 0 ∧
      (sonar_detect_target (fun _ _ => [0, 2500, 0]) ⟨7, 7, 7, 7, true⟩).2 =
        ⟨7, 7, 7, 7, false⟩) := by
  have hscan : sonar_scan (fun _ _ => [0, 2500, 0]) =
      { max_power := 2500, best_azimuth := BEAMFORM_AZIMUTH_MIN,
        best_elevation := BEAMFORM_ELEVATION_MIN, best_peak_idx := 1 } := by
    have h := sonar_scan_const [0, 2500, 0] (by decide)
    rw [h]
    simp only [scan_best.mk.injEq]
    exact ⟨by decide, trivial, trivial, by decide⟩
  have hcond : (sonar_scan (fun _ _ => [0, 2500, 0])).max_power <
      DETECTION_THRESHOLD ∨
      detect_range_cm (sonar_scan (fun _ _ => [0, 2500, 0])).best_peak_idx <
        MIN_RANGE_CM ∨
      MAX_RANGE_CM <
        detect_range_cm (sonar_scan (fun _ _ => [0, 2500, 0])).best_peak_idx := by
    rw [hscan]
    right
    left
    with_unfolding_all decide
  exact ⟨hcond,
    (detect_target_classification (fun _ _ => [0, 2500, 0]) ⟨7, 7, 7, 7, true⟩).1 hcond⟩

lemma arm_max_go_spec :
    ∀ (l : List ℚ) (best : ℚ) (bidx i : ℕ),
      (∀ x ∈ l, x ≤ (arm_max_go l best bidx i).1) ∧
      best ≤ (arm_max_go l best bidx i).1 ∧
      (((arm_max_go l best bidx i).1 = best ∧ (arm_max_go l best bidx i).2 = bidx) ∨
        ∃ k : ℕ, k < l.length ∧ (arm_max_go l best bidx i).2 = i + k ∧
          l.getD k 0 = (arm_max_go l best bidx i).1) := by
  intro l
  induction l with
  | nil =>
    intro best bidx i
    exact ⟨by simp, le_refl _, Or.inl ⟨rfl, rfl⟩⟩
  | cons y ys ih =>
    intro best bidx i
    by_cases hlt : best < y
    · have heq : arm_max_go (y :: ys) best bidx i = arm_max_go ys y i (i + 1) := by
        simp [arm_max_go, hlt]
      obtain ⟨ihmem, ihbest, ihattain⟩ := ih y i (i + 1)
      rw [heq]
      refine ⟨?_, le_of_lt (lt_of_lt_of_le hlt ihbest), ?_⟩
      · intro x hx
        rcases List.mem_cons.mp hx with hx | hx
        · subst hx; exact ihbest
        · exact ihmem x hx
      · rcases ihattain with ⟨h1, h2⟩ | ⟨k, hk, hidx, hval⟩
        · right
          refine ⟨0, by simp, by rw [h2]; omega, ?_⟩
          simp [h1]
        · right
          refine ⟨k + 1, by simp [Nat.succ_lt_succ hk], by rw [hidx]; omega, ?_⟩
          simpa [List.getD_cons_succ] using hval
    · have heq : arm_max_go (y :: ys) best bidx i = arm_max_go ys best bidx (i + 1) := by
        simp [arm_max_go, hlt]
      obtain ⟨ihmem, ihbest, ihattain⟩ := ih best bidx (i + 1)
      rw [heq]
      refine ⟨?_, ihbest, ?_⟩
      · intro x hx
        rcases List.mem_cons.mp hx with hx | hx
        · subst hx; exact le_trans (le_of_not_lt hlt) ihbest
        · exact ihmem x hx
      · rcases ihattain with h | ⟨k, hk, hidx, hval⟩
        · left; exact h
        · right
          refine ⟨k + 1, by simp [Nat.succ_lt_succ hk], by rw [hidx]; omega, ?_⟩
          simpa [List.getD_cons_succ] using hval

lemma arm_max_f32_spec (l : List ℚ) (h : l ≠ []) :
    (∀ x ∈ l, x ≤ (arm_max_f32 l).1) ∧
    (arm_max_f32 l).2 < l.length ∧
    l.getD (arm_max_f32 l).2 0 = (arm_max_f32 l).1 := by
  match l with
  | x :: xs =>
    obtain ⟨hmem, hbest, hattain⟩ := arm_max_go_spec xs x 0 1
    have heq : arm_max_f32 (x :: xs) = arm_max_go xs x 0 1 := rfl
    rw [heq]
    refine ⟨?_, ?_, ?_⟩
    · intro z hz
      rcases List.mem_cons.mp hz with hz | hz
      · subst hz; exact hbest
      · exact hmem z hz
    · rcases hattain with ⟨h1, h2⟩ | ⟨k, hk, hidx, hval⟩
      · rw [h2]; simp
      · rw [hidx]; simp only [List.length_cons]; omega
    · rcases hattain with ⟨h1, h2⟩ | ⟨k, hk, hidx, hval⟩
      · rw [h2, h1]; rfl
      · rw [hidx]
        have : 1 + k = k + 1 := by omega
        rw [this]
        simpa [List.getD_cons_succ] using hval

lemma scan_step_max_power (B : ℚ → ℚ → List ℚ) (b : scan_best) (p : ℚ × ℚ) :
    (scan_step B b p).max_power = max b.max_power (grid_power B p) := by
  simp only [scan_step, grid_power]
  split
  next h => exact (max_eq_right h.le).symm
  next h => exact (max_eq_left (not_lt.mp h)).symm

lemma scan_foldl_max_power (B : ℚ → ℚ → List ℚ) :
    ∀ (l : List (ℚ × ℚ)) (b : scan_best),
      (l.foldl (scan_step B) b).max_power =
        l.foldl (fun m p => max m (grid_power B p)) b.max_power := by
  intro l
  induction l with
  | nil => intro b; rfl
  | cons p rest ih =>
    intro b
    rw [List.foldl_cons, List.foldl_cons, ih, scan_step_max_power]

lemma scan_foldl_attained (B : ℚ → ℚ → List ℚ) :
    ∀ (l : List (ℚ × ℚ)) (b : scan_best),
      l.foldl (scan_step B) b = b ∨
      ∃ p ∈ l, (l.foldl (scan_step B) b).best_azimuth = p.1 ∧
        (l.foldl (scan_step B) b).best_elevation = p.2 ∧
        (l.foldl (scan_step B) b).max_power = grid_power B p ∧
        (l.foldl (scan_step B) b).best_peak_idx = (arm_max_f32 (B p.1 p.2)).2 := by
  intro l
  induction l with
  | nil => intro b; left; rfl
  | cons p rest ih =>
    intro b
    rw [List.foldl_cons]
    rcases ih (scan_step B b p) with h | ⟨q, hq, h1, h2, h3, h4⟩
    · rw [h]
      by_cases hc : b.max_power < grid_power B p
      · right
        refine ⟨p, List.mem_cons_self p rest, ?_⟩
        have hstep : scan_step B b p =
            { max_power := grid_power B p, best_azimuth := p.1,
              best_elevation := p.2,
              best_peak_idx := (arm_max_f32 (B p.1 p.2)).2 } := by
          simp only [scan_step, grid_power] at hc ⊢
          rw [if_pos hc]
        rw [hstep]
        exact ⟨rfl, rfl, rfl, rfl⟩
      · left
        simp only [scan_step, grid_power] at hc ⊢
        rw [if_neg hc]
    · right
      exact ⟨q, List.mem_cons_of_mem p hq, h1, h2, h3, h4⟩

lemma foldl_max_le (g : ℚ × ℚ → ℚ) :
    ∀ (l : List (ℚ × ℚ)) (m0 : ℚ),
      m0 ≤ l.foldl (fun m p => max m (g p)) m0 ∧
      ∀ p ∈ l, g p ≤ l.foldl (fun m p => max m (g p)) m0 := by
  intro l
  induction l with
  | nil => intro m0; exact ⟨le_refl _, by simp⟩
  | cons p rest ih =>
    intro m0
    rw [List.foldl_cons]
    obtain ⟨h1, h2⟩ := ih (max m0 (g p))
    refine ⟨le_trans (le_max_left _ _) h1, ?_⟩
    intro q hq
    rcases List.mem_cons.mp hq with hq | hq
    · subst hq; exact le_trans (le_max_right _ _) h1
    · exact h2 q hq

/-- Claim C3 amended: at each grid point the scan's candidate is the maximum
signed sample value of the beamformed output together with the index of its
first occurrence (CMSIS arm_max_f32), and the point's power is the absolute
value of that signed maximum — not the maximum absolute sample value.  The
tracked global best bounds every grid point's power, and whenever it is
positive it is attained at a scanned grid point whose direction, power and
peak index are the recorded ones. -/
theorem scan_tracks_signed_max (B : ℚ → ℚ → List ℚ) :
    (∀ az el : ℚ, B az el ≠ [] →
      (∀ x ∈ B az el, x ≤ (arm_max_f32 (B az el)).1) ∧
      (arm_max_f32 (B az el)).2 < (B az el).length ∧
      (B az el).getD (arm_max_f32 (B az el)).2 0 = (arm_max_f32 (B az el)).1) ∧
    (∀ p ∈ beam_grid, grid_power B p ≤ (sonar_scan B).max_power) ∧
    (0 < (sonar_scan B).max_power →
      ∃ p ∈ beam_grid,
        (sonar_scan B).best_azimuth = p.1 ∧
        (sonar_scan B).best_elevation = p.2 ∧
        (sonar_scan B).max_power = grid_power B p ∧
        (sonar_scan B).best_peak_idx = (arm_max_f32 (B p.1 p.2)).2) := by
  refine ⟨fun az el h => arm_max_f32_spec (B az el) h, ?_, ?_⟩
  · intro p hp
    have h := (foldl_max_le (grid_power B) beam_grid 0).2 p hp
    rw [sonar_scan, scan_foldl_max_power]
    exact h
  · intro hpos
    rcases scan_foldl_attained B beam_grid
        { max_power := 0, best_azimuth := 0, best_elevation := 0,
          best_peak_idx := 0 } with h | ⟨p, hp, h1, h2, h3, h4⟩
    · exfalso
      rw [sonar_scan, h] at hpos
      exact lt_irrefl 0 hpos
    · exact ⟨p, hp, h1, h2, h3, h4⟩

/-- Witness for scan_tracks_signed_max on the constant beamformed signal
[2, 1], whose scan best is positive and attained on the grid. -/
theorem scan_tracks_signed_max_witness :
    0 < (sonar_scan (fun _ _ => [2, 1])).max_power ∧
      ∃ p ∈ beam_grid,
        (sonar_scan (fun _ _ => [2, 1])).best_azimuth = p.1 ∧
        (sonar_scan (fun _ _ => [2, 1])).best_elevation = p.2 ∧
        (sonar_scan (fun _ _ => [2, 1])).max_power =
          grid_power (fun _ _ => [2, 1]) p ∧
        (sonar_scan (fun _ _ => [2, 1])).best_peak_idx =
          (arm_max_f32 ((fun (_ _ : ℚ) => [(2 : ℚ), 1]) p.1 p.2)).2 := by
  have hpos : 0 < (sonar_scan (fun _ _ => [2, 1])).max_power := by
    rw [sonar_scan_const [2, 1] (by decide)]
    decide
  exact ⟨hpos, (scan_tracks_signed_max (fun _ _ => [2, 1])).2.2 hpos⟩

/-- The spec's notion of a grid point's peak: the maximum absolute sample
value of the beamformed output. -/
def list_max_abs (l : List ℚ) : ℚ := (l.map (fun x => |x|)).foldl max 0

/-- Claim C3 counterexample: on the beamformed signal [0, -5, 1] (same at
every grid point) the scan's tracked peak is the signed maximum 1 at index
2, although the maximum absolute sample value is 5 (at index 1): the code
takes `fabsf` of `arm_max_f32`'s signed maximum instead of the maximum
absolute sample. -/
theorem scan_signed_max_counterexample :
    (sonar_scan (fun _ _ => [0, -5, 1])).max_power = 1 ∧
    (sonar_scan (fun _ _ => [0, -5, 1])).best_peak_idx = 2 ∧
    list_max_abs [0, -5, 1] = 5 ∧
    (sonar_scan (fun _ _ => [0, -5, 1])).max_power ≠ list_max_abs [0, -5, 1] := by
  have h := sonar_scan_const [0, -5, 1] (by decide)
  rw [h]
  exact ⟨by decide, by decide, by decide, by decide⟩

/-! Proportional navigation guidance (guidance.c, guidance_compute)

The guidance law computes Euclidean norms with `sqrtf`, so this part of the
embedding is idealized over the reals with `Real.sqrt` (hence
noncomputable); `arm_cos_f32`/`arm_sin_f32` remain uninterpreted parameters.
The target estimate keeps its exact rational fields and is cast into ℝ where
the C code reads the floats. -/

def GUIDANCE_N : ℝ := 3

def GUIDANCE_MAX_ACCEL : ℝ := 9.81

def GUIDANCE_MIN_RANGE_CM : ℝ := 5

structure vehicle_state_t where
  pos_x : ℝ
  pos_y : ℝ
  pos_z : ℝ
  vel_x : ℝ
  vel_y : ℝ
  vel_z : ℝ

structure guidance_cmd_t where
  accel_x : ℝ
  accel_y : ℝ
  accel_z : ℝ
  intercept : Bool

/-- Embeds `sqrtf(x*x + y*y + z*z)` as the C code writes it. -/
noncomputable def vec3_mag (v : ℝ × ℝ × ℝ) : ℝ :=
  Real.sqrt (v.1 * v.1 + v.2.1 * v.2.1 + v.2.2 * v.2.2)

/-- Relative position of the target (spherical-to-Cartesian conversion of
the estimate, minus the vehicle position). -/
noncomputable def guidance_rel_pos (cosf sinf : ℝ → ℝ)
    (vehicle : vehicle_state_t) (target : target_info_t) : ℝ × ℝ × ℝ :=
  let target_range_m : ℝ := (target.range_cm : ℝ) / 100
  let target_x := target_range_m * cosf (target.elevation_rad : ℝ) *
    cosf (target.azimuth_rad : ℝ)
  let target_y := target_range_m * cosf (target.elevation_rad : ℝ) *
    sinf (target.azimuth_rad : ℝ)
  let target_z := target_range_m * sinf (target.elevation_rad : ℝ)
  (target_x - vehicle.pos_x, target_y - vehicle.pos_y, target_z - vehicle.pos_z)

/-- The unclamped proportional-navigation acceleration
`a = N · closingVel · losRate` of guidance_compute. -/
noncomputable def guidance_pn_accel (cosf sinf : ℝ → ℝ)
    (vehicle : vehicle_state_t) (target : target_info_t) : ℝ × ℝ × ℝ :=
  let rel := guidance_rel_pos cosf sinf vehicle target
  let range := vec3_mag rel
  let los_x := rel.1 / range
  let los_y := rel.2.1 / range
  let los_z := rel.2.2 / range
  let rel_vel_x := -vehicle.vel_x
  let rel_vel_y := -vehicle.vel_y
  let rel_vel_z := -vehicle.vel_z
  let closing_vel := los_x * rel_vel_x + los_y * rel_vel_y + los_z * rel_vel_z
  let los_rate_x := (rel_vel_x - los_x * closing_vel) / range
  let los_rate_y := (rel_vel_y - los_y * closing_vel) / range
  let los_rate_z := (rel_vel_z - los_z * closing_vel) / range
  (GUIDANCE_N * closing_vel * los_rate_x,
   GUIDANCE_N * closing_vel * los_rate_y,
   GUIDANCE_N * closing_vel * los_rate_z)

/-- Embeds guidance_compute: `-2` for an invalid estimate (command untouched),
intercept with zero acceleration inside the minimum range, otherwise the PN
acceleration clamped in magnitude to GUIDANCE_MAX_ACCEL.  Null-pointer
arguments (`-1`) are excluded by the embedding's total values. -/
noncomputable def guidance_compute (cosf sinf : ℝ → ℝ)
    (vehicle : vehicle_state_t) (target : target_info_t)
    (cmd : guidance_cmd_t) : Int × guidance_cmd_t :=
  if target.valid = false then (-2, cmd)
  else
    let rel := guidance_rel_pos cosf sinf vehicle target
    let range := vec3_mag rel
    if range < GUIDANCE_MIN_RANGE_CM / 100 then
      (0, { accel_x := 0, accel_y := 0, accel_z := 0, intercept := true })
    else
      let a := guidance_pn_accel cosf sinf vehicle target
      let accel_mag := vec3_mag a
      if GUIDANCE_MAX_ACCEL < accel_mag then
        let scale := GUIDANCE_MAX_ACCEL / accel_mag
        (0, { accel_x := a.1 * scale, accel_y := a.2.1 * scale,
              accel_z := a.2.2 * scale, intercept := false })
      else
        (0, { accel_x := a.1, accel_y := a.2.1, accel_z := a.2.2,
              intercept := false })

def guidance_accel (cmd : guidance_cmd_t) : ℝ × ℝ × ℝ :=
  (cmd.accel_x, cmd.accel_y, cmd.accel_z)

/-- The property claimed of guidance_compute for a valid estimate: success,
intercept with zero acceleration below the minimum intercept range,
otherwise the PN acceleration emitted as-is when within GUIDANCE_MAX_ACCEL
and rescaled to magnitude exactly GUIDANCE_MAX_ACCEL (direction preserved:
a positive multiple) when above it; the emitted magnitude never exceeds
GUIDANCE_MAX_ACCEL. -/
def guidance_clamped_spec (cosf sinf : ℝ → ℝ) (vehicle : vehicle_state_t)
    (target : target_info_t) (cmd0 : guidance_cmd_t) : Prop :=
  let out := guidance_compute cosf sinf vehicle target cmd0
  let range := vec3_mag (guidance_rel_pos cosf sinf vehicle target)
  let a := guidance_pn_accel cosf sinf vehicle target
  out.1 = 0 ∧
  (range < GUIDANCE_MIN_RANGE_CM / 100 →
    out.2.intercept = true ∧ guidance_accel out.2 = (0, 0, 0)) ∧
  (¬ range < GUIDANCE_MIN_RANGE_CM / 100 →
    out.2.intercept = false ∧
    (vec3_mag a ≤ GUIDANCE_MAX_ACCEL → guidance_accel out.2 = a) ∧
    (GUIDANCE_MAX_ACCEL < vec3_mag a →
      vec3_mag (guidance_accel out.2) = GUIDANCE_MAX_ACCEL ∧
      ∃ c : ℝ, 0 < c ∧
        guidance_accel out.2 = (c * a.1, c * a.2.1, c * a.2.2))) ∧
  vec3_mag (guidance_accel out.2) ≤ GUIDANCE_MAX_ACCEL

/-- Claim C1: for every vehicle state and valid target estimate,
guidance_compute succeeds and either intercepts with zero acceleration
below the minimum range, or emits the PN acceleration clamped in magnitude
to GUIDANCE_MAX_ACCEL with its direction preserved, so the emitted
magnitude never exceeds GUIDANCE_MAX_ACCEL. -/
theorem guidance_accel_clamped (cosf sinf : ℝ → ℝ) (vehicle : vehicle_state_t)
    (target : target_info_t) (cmd0 : guidance_cmd_t)
    (hv : target.valid = true) :
    guidance_clamped_spec cosf sinf vehicle target cmd0 := by
  have hvn : ¬ (target.valid = false) := by simp [hv]
  simp only [guidance_clamped_spec]
  by_cases hr : vec3_mag (guidance_rel_pos cosf sinf vehicle target) <
      GUIDANCE_MIN_RANGE_CM / 100
  · have hout : guidance_compute cosf sinf vehicle target cmd0 =
        (0, { accel_x := 0, accel_y := 0, accel_z := 0, intercept := true }) := by
      simp only [guidance_compute, if_neg hvn, if_pos hr]
    rw [hout]
    have hzero : vec3_mag (guidance_accel
        { accel_x := 0, accel_y := 0, accel_z := 0, intercept := true }) = 0 := by
      simp [vec3_mag, guidance_accel]
    refine ⟨rfl, fun _ => ⟨rfl, rfl⟩, fun hn => absurd hr hn, ?_⟩
    rw [hzero]
    norm_num [GUIDANCE_MAX_ACCEL]
  · by_cases hm : GUIDANCE_MAX_ACCEL <
        vec3_mag (guidance_pn_accel cosf sinf vehicle target)
    · have hout : guidance_compute cosf sinf vehicle target cmd0 =
          (0, { accel_x := (guidance_pn_accel cosf sinf vehicle target).1 *
                  (GUIDANCE_MAX_ACCEL /
                    vec3_mag (guidance_pn_accel cosf sinf vehicle target)),
                accel_y := (guidance_pn_accel cosf sinf vehicle target).2.1 *
                  (GUIDANCE_MAX_ACCEL /
                    vec3_mag (guidance_pn_accel cosf sinf vehicle target)),
                accel_z := (guidance_pn_accel cosf sinf vehicle target).2.2 *
                  (GUIDANCE_MAX_ACCEL /
                    vec3_mag (guidance_pn_accel cosf sinf vehicle target)),
                intercept := false }) := by
        simp only [guidance_compute, if_neg hvn, if_neg hr, if_pos hm]
      have hmaxpos : (0 : ℝ) < GUIDANCE_MAX_ACCEL := by norm_num [GUIDANCE_MAX_ACCEL]
      have hmagpos : 0 < vec3_mag (guidance_pn_accel cosf sinf vehicle target) :=
        lt_trans hmaxpos hm
      have hmagne : vec3_mag (guidance_pn_accel cosf sinf vehicle target) ≠ 0 :=
        ne_of_gt hmagpos
      have hscalepos : 0 < GUIDANCE_MAX_ACCEL /
          vec3_mag (guidance_pn_accel cosf sinf vehicle target) :=
        div_pos hmaxpos hmagpos
      have hscaled : vec3_mag
          ((guidance_pn_accel cosf sinf vehicle target).1 *
              (GUIDANCE_MAX_ACCEL /
                vec3_mag (guidance_pn_accel cosf sinf vehicle target)),
            (guidance_pn_accel cosf sinf vehicle target).2.1 *
              (GUIDANCE_MAX_ACCEL /
                vec3_mag (guidance_pn_accel cosf sinf vehicle target)),
            (guidance_pn_accel cosf sinf vehicle target).2.2 *
              (GUIDANCE_MAX_ACCEL /
                vec3_mag (guidance_pn_accel cosf sinf vehicle target))) =
          GUIDANCE_MAX_ACCEL := by
        set s : ℝ := GUIDANCE_MAX_ACCEL /
          vec3_mag (guidance_pn_accel cosf sinf vehicle target) with hs
        set ax := (guidance_pn_accel cosf sinf vehicle target).1
        set ay := (guidance_pn_accel cosf sinf vehicle target).2.1
        set az := (guidance_pn_accel cosf sinf vehicle target).2.2
        have harg : ax * s * (ax * s) + ay * s * (ay * s) + az * s * (az * s) =
            s ^ 2 * (ax * ax + ay * ay + az * az) := by ring
        show Real.sqrt (ax * s * (ax * s) + ay * s * (ay * s) + az * s * (az * s)) =
          GUIDANCE_MAX_ACCEL
        rw [harg, Real.sqrt_mul (sq_nonneg s), Real.sqrt_sq hscalepos.le]
        have hmagdef : Real.sqrt (ax * ax + ay * ay + az * az) =
            vec3_mag (guidance_pn_accel cosf sinf vehicle target) := rfl
        rw [hmagdef, hs]
        exact div_mul_cancel₀ GUIDANCE_MAX_ACCEL hmagne
      rw [hout]
      refine ⟨rfl, fun hc => absurd hc hr, fun _ => ⟨rfl, ?_, ?_⟩, ?_⟩
      · intro hle
        exact absurd hm (not_lt.mpr hle)
      · intro _
        refine ⟨hscaled, ⟨GUIDANCE_MAX_ACCEL /
          vec3_mag (guidance_pn_accel cosf sinf vehicle target), hscalepos, ?_⟩⟩
        simp only [guidance_accel]
        refine congrArg₂ Prod.mk (by ring) (congrArg₂ Prod.mk (by ring) (by ring))
      · rw [show guidance_accel
            { accel_x := (guidance_pn_accel cosf sinf vehicle target).1 *
                (GUIDANCE_MAX_ACCEL /
                  vec3_mag (guidance_pn_accel cosf sinf vehicle target)),
              accel_y := (guidance_pn_accel cosf sinf vehicle target).2.1 *
                (GUIDANCE_MAX_ACCEL /
                  vec3_mag (guidance_pn_accel cosf sinf vehicle target)),
              accel_z := (guidance_pn_accel cosf sinf vehicle target).2.2 *
                (GUIDANCE_MAX_ACCEL /
                  vec3_mag (guidance_pn_accel cosf sinf vehicle target)),
              intercept := false } =
          ((guidance_pn_accel cosf sinf vehicle target).1 *
              (GUIDANCE_MAX_ACCEL /
                vec3_mag (guidance_pn_accel cosf sinf vehicle target)),
            (guidance_pn_accel cosf sinf vehicle target).2.1 *
              (GUIDANCE_MAX_ACCEL /
                vec3_mag (guidance_pn_accel cosf sinf vehicle target)),
            (guidance_pn_accel cosf sinf vehicle target).2.2 *
              (GUIDANCE_MAX_ACCEL /
                vec3_mag (guidance_pn_accel cosf sinf vehicle target))) from rfl]
        rw [hscaled]
    · have hout : guidance_compute cosf sinf vehicle target cmd0 =
          (0, { accel_x := (guidance_pn_accel cosf sinf vehicle target).1,
                accel_y := (guidance_pn_accel cosf sinf vehicle target).2.1,
                accel_z := (guidance_pn_accel cosf sinf vehicle target).2.2,
                intercept := false }) := by
        simp only [guidance_compute, if_neg hvn, if_neg hr, if_neg hm]
      rw [hout]
      have hacc : guidance_accel
          { accel_x := (guidance_pn_accel cosf sinf vehicle target).1,
            accel_y := (guidance_pn_accel cosf sinf vehicle target).2.1,
            accel_z := (guidance_pn_accel cosf sinf vehicle target).2.2,
            intercept := false } = guidance_pn_accel cosf sinf vehicle target := rfl
      refine ⟨rfl, fun hc => absurd hc hr, fun _ => ⟨rfl, fun _ => hacc, ?_⟩, ?_⟩
      · intro hgt
        exact absurd hgt hm
      · rw [hacc]
        exact not_lt.mp hm

/-- Witness for guidance_accel_clamped: vehicle at rest at the origin, a
valid estimate 100 cm straight ahead (with `cosf = 1`, `sinf = 0`). -/
theorem guidance_accel_clamped_witness :
    (⟨100, 0, 0, 1, true⟩ : target_info_t).valid = true ∧
      guidance_clamped_spec (fun _ => 1) (fun _ => 0) ⟨0, 0, 0, 0, 0, 0⟩
        ⟨100, 0, 0, 1, true⟩ ⟨0, 0, 0, false⟩ :=
  ⟨rfl, guidance_accel_clamped (fun _ => 1) (fun _ => 0) ⟨0, 0, 0, 0, 0, 0⟩
    ⟨100, 0, 0, 1, true⟩ ⟨0, 0, 0, false⟩ rfl⟩

end SkeeterHawk
